import Mathlib

/-! Shallow embedding of the voxel data model, terrain generator and mesher of
src/main.rs (ernivani/3dRust).

Modelling conventions: the i32/u32/usize machine integers are modelled as
ℤ resp. ℕ (no quantity manipulated here approaches the 32-bit range: chunk
coordinates are small and a chunk emits at most 24·16³ vertices), the f32/f64
floating-point values as ℚ (every geometric constant of the source is a small
decimal), `Vec` as `List`, and the two `HashMap`s as association lists whose
iteration order is their insertion order. The source's std `HashMap` gives no
stability contract for its iteration order after a clear and re-insertion, so
this fixed order is an abstraction: the theorems below only draw conclusions
that are insensitive to the order in which visible blocks are emitted
(lengths, membership, index bounds), never the order itself. `Perlin` comes
from the external
noise crate, outside this repository, so its samplers are parameters of the
embedding (`NoiseOracles`). Fallible operations (Rust array indexing, which
panics out of bounds, and `HashMap` lookup) return `Option`. -/

def CHUNK_SIZE : Nat := 16

/-- Block types of the voxel world (enum `BlockType` in main.rs). -/
inductive BlockType where
  | Air
  | Grass
  | Dirt
  | Stone
  | Water
  deriving DecidableEq, Repr

/-- Local position of a block inside a chunk (struct `BlockPosition`, usize fields). -/
structure BlockPosition where
  x : Nat
  y : Nat
  z : Nat
  deriving DecidableEq, Repr

/-- One mesh vertex, 8 scalars: `x, y, z, s, t, position, textureIndex, textSize`
(type `Vertex = [f32; 8]` in main.rs; the field names follow the source comment). -/
structure Vertex where
  x : ℚ
  y : ℚ
  z : ℚ
  s : ℚ
  t : ℚ
  position : ℚ
  textureIndex : ℚ
  textSize : ℚ
  deriving DecidableEq, Repr

/-- Triangle of vertex-buffer indices (type `TriIndexes = [u32; 3]`). -/
abbrev TriIndexes := Nat × Nat × Nat

/-- Struct `Chunk` of main.rs, with its derived per-update buffers. -/
structure Chunk where
  position : ℤ × ℤ × ℤ
  blocks : List (List (List BlockType))
  visible_blocks : List (BlockPosition × BlockType)
  vertices : List Vertex
  indices : List TriIndexes
  vertex_count : Nat
  deriving DecidableEq, Repr

/-- Struct `World` of main.rs: the chunk store, keyed by chunk coordinates. -/
structure World where
  chunks : List ((ℤ × ℤ × ℤ) × Chunk)
  deriving DecidableEq, Repr

/-- Fallible triple indexing `blocks[x][y][z]`; `none` models the Rust panic on
an out-of-bounds index. -/
def Chunk.blockAt? (c : Chunk) (x y z : Nat) : Option BlockType :=
  c.blocks[x]?.bind fun plane => plane[y]?.bind fun row => row[z]?

/-- Total reading of `blocks[x][y][z]`, defaulting to Air; it agrees with the
fallible one on well-formed chunks. -/
def Chunk.blockAtD (c : Chunk) (x y z : Nat) : BlockType :=
  (c.blockAt? x y z).getD BlockType.Air

/-- Lookup `self.chunks.get(&key)` of the world's chunk map. -/
def World.findChunk (w : World) (key : ℤ × ℤ × ℤ) : Option Chunk :=
  (w.chunks.find? fun kc => decide (kc.1 = key)).map fun kc => kc.2

/-- Embedding of World::get_block with the Rust array indexing made fallible: chunk key by
Euclidean division, `some Air` when no chunk is stored under that key, and the
triple indexing at the Euclidean remainders otherwise. -/
def World.get_block? (w : World) (world_x world_y world_z : ℤ) : Option BlockType :=
  let chunk_x := world_x.ediv (CHUNK_SIZE : ℤ)
  let chunk_y := world_y.ediv (CHUNK_SIZE : ℤ)
  let chunk_z := world_z.ediv (CHUNK_SIZE : ℤ)
  match w.findChunk (chunk_x, chunk_y, chunk_z) with
  | some chunk =>
      let lx := (world_x.emod (CHUNK_SIZE : ℤ)).toNat
      let ly := (world_y.emod (CHUNK_SIZE : ℤ)).toNat
      let lz := (world_z.emod (CHUNK_SIZE : ℤ)).toNat
      chunk.blockAt? lx ly lz
  | none => some BlockType.Air

/-- Total version of `World::get_block`, as it is consumed by the mesher. -/
def World.get_block (w : World) (world_x world_y world_z : ℤ) : BlockType :=
  (w.get_block? world_x world_y world_z).getD BlockType.Air

def faceFront : String := "front"

def faceBack : String := "back"

def faceTop : String := "top"

def faceBottom : String := "bottom"

def faceRight : String := "right"

def faceLeft : String := "left"

/-- Neighbor position for a face name (the `match` opening `should_render_face`);
`none` models the catch-all arm, on which the function returns true. -/
def check_pos? (world_x world_y world_z : ℤ) (face : String) : Option (ℤ × ℤ × ℤ) :=
  match face with
  | "front" => some (world_x, world_y, world_z + 1)
  | "back" => some (world_x, world_y, world_z - 1)
  | "top" => some (world_x, world_y + 1, world_z)
  | "bottom" => some (world_x, world_y - 1, world_z)
  | "right" => some (world_x + 1, world_y, world_z)
  | "left" => some (world_x - 1, world_y, world_z)
  | _ => none

/-- Face visibility test `should_render_face` of main.rs. -/
def should_render_face (world : World) (world_x world_y world_z : ℤ) (face : String) : Bool :=
  match check_pos? world_x world_y world_z face with
  | none => true
  | some check_pos =>
      let current_block := world.get_block world_x world_y world_z
      let neighbor_block := world.get_block check_pos.1 check_pos.2.1 check_pos.2.2
      match current_block with
      | BlockType.Water =>
          decide (neighbor_block = BlockType.Air) || !decide (neighbor_block = BlockType.Water)
      | _ =>
          decide (neighbor_block = BlockType.Air) || decide (neighbor_block = BlockType.Water)

/-- Vertex tables of `generate_cube_vertices` in main.rs, f32 literals as ℚ
(so 0.5 is 1/2 and the water level offset 0.4 is 2/5). -/
def generate_cube_vertices (x y z : ℚ) (block_type : BlockType) (world : World)
    (world_x world_y world_z : ℤ) : List Vertex :=
  match block_type with
  | BlockType.Air => []
  | BlockType.Grass =>
      (if should_render_face world world_x world_y world_z faceFront then
        [⟨x - 1/2, y - 1/2, z + 1/2, 0, 1, 0, 1, 1⟩,
         ⟨x + 1/2, y - 1/2, z + 1/2, 1, 1, 1, 1, 1⟩,
         ⟨x + 1/2, y + 1/2, z + 1/2, 1, 0, 2, 1, 1⟩,
         ⟨x - 1/2, y + 1/2, z + 1/2, 0, 0, 3, 1, 1⟩] else []) ++
      (if should_render_face world world_x world_y world_z faceBack then
        [⟨x - 1/2, y - 1/2, z - 1/2, 1, 1, 4, 1, 1⟩,
         ⟨x - 1/2, y + 1/2, z - 1/2, 1, 0, 5, 1, 1⟩,
         ⟨x + 1/2, y + 1/2, z - 1/2, 0, 0, 6, 1, 1⟩,
         ⟨x + 1/2, y - 1/2, z - 1/2, 0, 1, 7, 1, 1⟩] else []) ++
      (if should_render_face world world_x world_y world_z faceTop then
        [⟨x - 1/2, y + 1/2, z - 1/2, 0, 0, 8, 0, 1⟩,
         ⟨x - 1/2, y + 1/2, z + 1/2, 1, 0, 9, 0, 1⟩,
         ⟨x + 1/2, y + 1/2, z + 1/2, 1, 1, 10, 0, 1⟩,
         ⟨x + 1/2, y + 1/2, z - 1/2, 0, 1, 11, 0, 1⟩] else []) ++
      (if should_render_face world world_x world_y world_z faceBottom then
        [⟨x - 1/2, y - 1/2, z - 1/2, 0, 0, 12, 2, 1⟩,
         ⟨x + 1/2, y - 1/2, z - 1/2, 1, 0, 13, 2, 1⟩,
         ⟨x + 1/2, y - 1/2, z + 1/2, 1, 1, 14, 2, 1⟩,
         ⟨x - 1/2, y - 1/2, z + 1/2, 0, 1, 15, 2, 1⟩] else []) ++
      (if should_render_face world world_x world_y world_z faceRight then
        [⟨x + 1/2, y - 1/2, z - 1/2, 0, 1, 16, 1, 1⟩,
         ⟨x + 1/2, y + 1/2, z - 1/2, 0, 0, 17, 1, 1⟩,
         ⟨x + 1/2, y + 1/2, z + 1/2, 1, 0, 18, 1, 1⟩,
         ⟨x + 1/2, y - 1/2, z + 1/2, 1, 1, 19, 1, 1⟩] else []) ++
      (if should_render_face world world_x world_y world_z faceLeft then
        [⟨x - 1/2, y - 1/2, z - 1/2, 1, 1, 20, 1, 1⟩,
         ⟨x - 1/2, y - 1/2, z + 1/2, 0, 1, 21, 1, 1⟩,
         ⟨x - 1/2, y + 1/2, z + 1/2, 0, 0, 22, 1, 1⟩,
         ⟨x - 1/2, y + 1/2, z - 1/2, 1, 0, 23, 1, 1⟩] else [])
  | BlockType.Dirt =>
      (if should_render_face world world_x world_y world_z faceFront then
        [⟨x - 1/2, y - 1/2, z + 1/2, 0, 1, 0, 2, 1⟩,
         ⟨x + 1/2, y - 1/2, z + 1/2, 1, 1, 1, 2, 1⟩,
         ⟨x + 1/2, y + 1/2, z + 1/2, 1, 0, 2, 2, 1⟩,
         ⟨x - 1/2, y + 1/2, z + 1/2, 0, 0, 3, 2, 1⟩] else []) ++
      (if should_render_face world world_x world_y world_z faceBack then
        [⟨x - 1/2, y - 1/2, z - 1/2, 1, 1, 4, 2, 1⟩,
         ⟨x - 1/2, y + 1/2, z - 1/2, 1, 0, 5, 2, 1⟩,
         ⟨x + 1/2, y + 1/2, z - 1/2, 0, 0, 6, 2, 1⟩,
         ⟨x + 1/2, y - 1/2, z - 1/2, 0, 1, 7, 2, 1⟩] else []) ++
      (if should_render_face world world_x world_y world_z faceTop then
        [⟨x - 1/2, y + 1/2, z - 1/2, 0, 0, 8, 2, 1⟩,
         ⟨x - 1/2, y + 1/2, z + 1/2, 1, 0, 9, 2, 1⟩,
         ⟨x + 1/2, y + 1/2, z + 1/2, 1, 1, 10, 2, 1⟩,
         ⟨x + 1/2, y + 1/2, z - 1/2, 0, 1, 11, 2, 1⟩] else []) ++
      (if should_render_face world world_x world_y world_z faceBottom then
        [⟨x - 1/2, y - 1/2, z - 1/2, 0, 0, 12, 2, 1⟩,
         ⟨x + 1/2, y - 1/2, z - 1/2, 1, 0, 13, 2, 1⟩,
         ⟨x + 1/2, y - 1/2, z + 1/2, 1, 1, 14, 2, 1⟩,
         ⟨x - 1/2, y - 1/2, z + 1/2, 0, 1, 15, 2, 1⟩] else []) ++
      (if should_render_face world world_x world_y world_z faceRight then
        [⟨x + 1/2, y - 1/2, z - 1/2, 0, 1, 16, 2, 1⟩,
         ⟨x + 1/2, y + 1/2, z - 1/2, 0, 0, 17, 2, 1⟩,
         ⟨x + 1/2, y + 1/2, z + 1/2, 1, 0, 18, 2, 1⟩,
         ⟨x + 1/2, y - 1/2, z + 1/2, 1, 1, 19, 2, 1⟩] else []) ++
      (if should_render_face world world_x world_y world_z faceLeft then
        [⟨x - 1/2, y - 1/2, z - 1/2, 1, 1, 20, 2, 1⟩,
         ⟨x - 1/2, y - 1/2, z + 1/2, 0, 1, 21, 2, 1⟩,
         ⟨x - 1/2, y + 1/2, z + 1/2, 0, 0, 22, 2, 1⟩,
         ⟨x - 1/2, y + 1/2, z - 1/2, 1, 0, 23, 2, 1⟩] else [])
  | BlockType.Stone =>
      (if should_render_face world world_x world_y world_z faceFront then
        [⟨x - 1/2, y - 1/2, z + 1/2, 0, 1, 0, 3, 1⟩,
         ⟨x + 1/2, y - 1/2, z + 1/2, 1, 1, 1, 3, 1⟩,
         ⟨x + 1/2, y + 1/2, z + 1/2, 1, 0, 2, 3, 1⟩,
         ⟨x - 1/2, y + 1/2, z + 1/2, 0, 0, 3, 3, 1⟩] else []) ++
      (if should_render_face world world_x world_y world_z faceBack then
        [⟨x - 1/2, y - 1/2, z - 1/2, 1, 1, 4, 3, 1⟩,
         ⟨x - 1/2, y + 1/2, z - 1/2, 1, 0, 5, 3, 1⟩,
         ⟨x + 1/2, y + 1/2, z - 1/2, 0, 0, 6, 3, 1⟩,
         ⟨x + 1/2, y - 1/2, z - 1/2, 0, 1, 7, 3, 1⟩] else []) ++
      (if should_render_face world world_x world_y world_z faceTop then
        [⟨x - 1/2, y + 1/2, z - 1/2, 0, 0, 8, 3, 1⟩,
         ⟨x - 1/2, y + 1/2, z + 1/2, 1, 0, 9, 3, 1⟩,
         ⟨x + 1/2, y + 1/2, z + 1/2, 1, 1, 10, 3, 1⟩,
         ⟨x + 1/2, y + 1/2, z - 1/2, 0, 1, 11, 3, 1⟩] else []) ++
      (if should_render_face world world_x world_y world_z faceBottom then
        [⟨x - 1/2, y - 1/2, z - 1/2, 0, 0, 12, 3, 1⟩,
         ⟨x + 1/2, y - 1/2, z - 1/2, 1, 0, 13, 3, 1⟩,
         ⟨x + 1/2, y - 1/2, z + 1/2, 1, 1, 14, 3, 1⟩,
         ⟨x - 1/2, y - 1/2, z + 1/2, 0, 1, 15, 3, 1⟩] else []) ++
      (if should_render_face world world_x world_y world_z faceRight then
        [⟨x + 1/2, y - 1/2, z - 1/2, 0, 1, 16, 3, 1⟩,
         ⟨x + 1/2, y + 1/2, z - 1/2, 0, 0, 17, 3, 1⟩,
         ⟨x + 1/2, y + 1/2, z + 1/2, 1, 0, 18, 3, 1⟩,
         ⟨x + 1/2, y - 1/2, z + 1/2, 1, 1, 19, 3, 1⟩] else []) ++
      (if should_render_face world world_x world_y world_z faceLeft then
        [⟨x - 1/2, y - 1/2, z - 1/2, 1, 1, 20, 3, 1⟩,
         ⟨x - 1/2, y - 1/2, z + 1/2, 0, 1, 21, 3, 1⟩,
         ⟨x - 1/2, y + 1/2, z + 1/2, 0, 0, 22, 3, 1⟩,
         ⟨x - 1/2, y + 1/2, z - 1/2, 1, 0, 23, 3, 1⟩] else [])
  | BlockType.Water =>
      (if should_render_face world world_x world_y world_z faceTop then
        [⟨x - 1/2, y + 2/5, z - 1/2, 0, 0, 8, 4, 1⟩,
         ⟨x - 1/2, y + 2/5, z + 1/2, 1, 0, 9, 4, 1⟩,
         ⟨x + 1/2, y + 2/5, z + 1/2, 1, 1, 10, 4, 1⟩,
         ⟨x + 1/2, y + 2/5, z - 1/2, 0, 1, 11, 4, 1⟩] else [])

/-- Index generation `generate_indices_for_vertices`: for every i in
`(0..vertex_count).step_by(4)` push the two triangles of the quad whose first
vertex is `vertex_offset + i`. -/
def generate_indices_for_vertices (vertex_offset vertex_count : Nat) : List TriIndexes :=
  (List.range vertex_count).flatMap fun i =>
    if i % 4 = 0 then
      [(vertex_offset + i, vertex_offset + i + 1, vertex_offset + i + 2),
       (vertex_offset + i + 2, vertex_offset + i + 3, vertex_offset + i)]
    else []

/-- Scan test of `Chunk::update` for one cell: a non-Air block with at least
one visible face is inserted into visible_blocks (the face check uses world
coordinates through the world). -/
def Chunk.visibleCell (c : Chunk) (world : World) (x y z : Nat) :
    List (BlockPosition × BlockType) :=
  let block_type := c.blockAtD x y z
  if block_type ≠ BlockType.Air then
    let world_x := c.position.1 * (CHUNK_SIZE : ℤ) + (x : ℤ)
    let world_y := c.position.2.1 * (CHUNK_SIZE : ℤ) + (y : ℤ)
    let world_z := c.position.2.2 * (CHUNK_SIZE : ℤ) + (z : ℤ)
    if should_render_face world world_x world_y world_z faceFront ||
       should_render_face world world_x world_y world_z faceBack ||
       should_render_face world world_x world_y world_z faceTop ||
       should_render_face world world_x world_y world_z faceBottom ||
       should_render_face world world_x world_y world_z faceRight ||
       should_render_face world world_x world_y world_z faceLeft then
      [(⟨x, y, z⟩, block_type)]
    else []
  else []

/-- Scan pass of `Chunk::update`: the visible blocks, in x, y, z scan order
(which is the insertion order into the `visible_blocks` map; the model's map
iterates in insertion order). -/
def Chunk.visibleList (c : Chunk) (world : World) : List (BlockPosition × BlockType) :=
  (List.range CHUNK_SIZE).flatMap fun x =>
    (List.range CHUNK_SIZE).flatMap fun y =>
      (List.range CHUNK_SIZE).flatMap fun z => c.visibleCell world x y z

/-- Accumulator of the emission pass of `Chunk::update`:
(vertices, indices, vertex_count). -/
abbrev MeshAcc := List Vertex × List TriIndexes × Nat

/-- Cube vertices generated by `Chunk::update` for one visible block: the call
to generate_cube_vertices at the block's world coordinates (passed both as the
f32 triple and as the i32 triple, which agree on these integer values). -/
def Chunk.cubeFor (c : Chunk) (world : World) (entry : BlockPosition × BlockType) :
    List Vertex :=
  generate_cube_vertices
    (((c.position.1 * (CHUNK_SIZE : ℤ) : ℤ) : ℚ) + (entry.1.x : ℚ))
    (((c.position.2.1 * (CHUNK_SIZE : ℤ) : ℤ) : ℚ) + (entry.1.y : ℚ))
    (((c.position.2.2 * (CHUNK_SIZE : ℤ) : ℤ) : ℚ) + (entry.1.z : ℚ))
    entry.2 world
    (c.position.1 * (CHUNK_SIZE : ℤ) + (entry.1.x : ℤ))
    (c.position.2.1 * (CHUNK_SIZE : ℤ) + (entry.1.y : ℤ))
    (c.position.2.2 * (CHUNK_SIZE : ℤ) + (entry.1.z : ℤ))

/-- Emission step of `Chunk::update` for one visible block: when some face was
emitted, append the cube vertices together with their quad indices generated
at the running vertex offset. -/
def Chunk.meshStep (c : Chunk) (world : World) (acc : MeshAcc)
    (entry : BlockPosition × BlockType) : MeshAcc :=
  let cube_vertices := c.cubeFor world entry
  if cube_vertices.isEmpty then acc
  else
    (acc.1 ++ cube_vertices,
     acc.2.1 ++ generate_indices_for_vertices acc.2.2 cube_vertices.length,
     acc.2.2 + cube_vertices.length)

/-- Embedding of Chunk::update: clears the derived buffers and fully recomputes
visible_blocks, vertices, indices and vertex_count from blocks and the world. -/
def Chunk.update (c : Chunk) (world : World) : Chunk :=
  let visible := c.visibleList world
  let r := visible.foldl (c.meshStep world) ([], [], 0)
  { c with visible_blocks := visible, vertices := r.1, indices := r.2.1, vertex_count := r.2.2 }

/-- Noise samplers used by `Chunk::generate_terrain` (`Perlin::new(42)`,
`Perlin::new(123)`, `Perlin::new(666)` of the external noise crate; the crate
is not part of this repository, so the samplers are embedding parameters). -/
structure NoiseOracles where
  terrain_noise : ℚ → ℚ → ℚ
  detail_noise : ℚ → ℚ → ℚ
  cave_noise : ℚ → ℚ → ℚ → ℚ

/-- Truncation toward zero, the Rust cast `(value : f64) as i32`. -/
def ratTrunc (q : ℚ) : ℤ := q.num.tdiv q.den

/-- Surface height of one terrain column of `Chunk::generate_terrain`:
base noise at frequency 0.02, amplitude 32, offset 64, plus detail noise at
4 times the frequency, amplitude 8, truncated to an integer. -/
def surfaceHeight (noise : NoiseOracles) (pos : ℤ × ℤ × ℤ) (x z : Nat) : ℤ :=
  let world_x : ℤ := pos.1 * (CHUNK_SIZE : ℤ) + (x : ℤ)
  let world_z : ℤ := pos.2.2 * (CHUNK_SIZE : ℤ) + (z : ℤ)
  let nx : ℚ := (world_x : ℚ) * (2 / 100)
  let nz : ℚ := (world_z : ℚ) * (2 / 100)
  let base_height := noise.terrain_noise nx nz * 32 + 64
  let detail := noise.detail_noise (nx * 4) (nz * 4) * 8
  ratTrunc (base_height + detail)

/-- Cave density sample of `Chunk::generate_terrain`, frequency 0.05 on all
three axes. -/
def caveValue (noise : NoiseOracles) (pos : ℤ × ℤ × ℤ) (x y z : Nat) : ℚ :=
  let world_x : ℤ := pos.1 * (CHUNK_SIZE : ℤ) + (x : ℤ)
  let world_y : ℤ := pos.2.1 * (CHUNK_SIZE : ℤ) + (y : ℤ)
  let world_z : ℤ := pos.2.2 * (CHUNK_SIZE : ℤ) + (z : ℤ)
  noise.cave_noise ((world_x : ℚ) * (5 / 100)) ((world_y : ℚ) * (5 / 100))
    ((world_z : ℚ) * (5 / 100))

/-- Block decision of `Chunk::generate_terrain` at one cell, in the order of
the source's if chain. -/
def terrainBlock (noise : NoiseOracles) (pos : ℤ × ℤ × ℤ) (x y z : Nat) : BlockType :=
  let height := surfaceHeight noise pos x z
  let world_y : ℤ := pos.2.1 * (CHUNK_SIZE : ℤ) + (y : ℤ)
  let cave_value := caveValue noise pos x y z
  if world_y < height then
    if cave_value > 6 / 10 then BlockType.Air
    else if world_y = height - 1 then BlockType.Grass
    else if world_y > height - 4 then BlockType.Dirt
    else BlockType.Stone
  else if world_y < 60 then BlockType.Water
  else BlockType.Air

/-- Embedding of Chunk::generate_terrain: the Rust loops assign every cell of the
16×16×16 blocks array exactly once, to the terrainBlock decision. -/
def Chunk.generate_terrain (noise : NoiseOracles) (c : Chunk) : Chunk :=
  { c with blocks :=
      (List.range CHUNK_SIZE).map fun x =>
        (List.range CHUNK_SIZE).map fun y =>
          (List.range CHUNK_SIZE).map fun z => terrainBlock noise c.position x y z }

/-- Embedding of Chunk::new: a fully populated all-Air blocks array and empty derived
buffers, immediately passed through generate_terrain. -/
def Chunk.new (noise : NoiseOracles) (position : ℤ × ℤ × ℤ) : Chunk :=
  Chunk.generate_terrain noise
    { position := position
      blocks := List.replicate CHUNK_SIZE
        (List.replicate CHUNK_SIZE (List.replicate CHUNK_SIZE BlockType.Air))
      visible_blocks := []
      vertices := []
      indices := []
      vertex_count := 0 }

/-- Shape invariant of a chunk: its blocks array is fully populated, 16×16×16. -/
def Chunk.wfBlocks (c : Chunk) : Prop :=
  c.blocks.length = CHUNK_SIZE ∧
    ∀ plane ∈ c.blocks, plane.length = CHUNK_SIZE ∧
      ∀ row ∈ plane, row.length = CHUNK_SIZE

instance (c : Chunk) : Decidable c.wfBlocks := by
  unfold Chunk.wfBlocks; infer_instance

/-- Shape invariant of a world: every stored chunk is well formed. -/
def World.wf (w : World) : Prop := ∀ kc ∈ w.chunks, Chunk.wfBlocks kc.2

instance (w : World) : Decidable w.wf := by
  unfold World.wf; infer_instance

/-- Scaffolding for concrete worlds: a 16×16×16 blocks array whose cell
(x, y, z) holds f x y z. -/
def blocksOfFun (f : Nat → Nat → Nat → BlockType) : List (List (List BlockType)) :=
  (List.range CHUNK_SIZE).map fun x =>
    (List.range CHUNK_SIZE).map fun y =>
      (List.range CHUNK_SIZE).map fun z => f x y z

/-- Scaffolding: the chunk at chunk coordinate (0,0,0) holding blocksOfFun f,
with empty derived buffers. -/
def funChunk (f : Nat → Nat → Nat → BlockType) : Chunk :=
  { position := (0, 0, 0), blocks := blocksOfFun f, visible_blocks := [],
    vertices := [], indices := [], vertex_count := 0 }

/-- Scaffolding: the world holding exactly funChunk f. -/
def funWorld (f : Nat → Nat → Nat → BlockType) : World :=
  { chunks := [((0, 0, 0), funChunk f)] }


/-! Helper lemmas about block lookup. -/

lemma chunkSize_eq : CHUNK_SIZE = 16 := rfl

lemma chunkSize_intCast : ((CHUNK_SIZE : ℕ) : ℤ) = 16 := by norm_num [CHUNK_SIZE]

lemma intEdivEq (a b : ℤ) : a.ediv b = a / b := rfl

lemma intEmodEq (a b : ℤ) : a.emod b = a % b := rfl

lemma blockAt?_blocksOfFun (c : Chunk) (f : Nat → Nat → Nat → BlockType)
    (hc : c.blocks = blocksOfFun f) (x y z : Nat)
    (hx : x < CHUNK_SIZE) (hy : y < CHUNK_SIZE) (hz : z < CHUNK_SIZE) :
    c.blockAt? x y z = some (f x y z) := by
  rw [Chunk.blockAt?, hc, blocksOfFun]
  simp [List.getElem?_map, List.getElem?_range hx, List.getElem?_range hy,
    List.getElem?_range hz]

lemma findChunk_funWorld_origin (f : Nat → Nat → Nat → BlockType) :
    (funWorld f).findChunk (0, 0, 0) = some (funChunk f) := by
  rw [World.findChunk, funWorld]
  rw [List.find?_cons_of_pos _ (by simp)]
  rfl

lemma findChunk_funWorld_ne (f : Nat → Nat → Nat → BlockType) (key : ℤ × ℤ × ℤ)
    (hkey : key ≠ (0, 0, 0)) : (funWorld f).findChunk key = none := by
  rw [World.findChunk, funWorld]
  rw [List.find?_cons_of_neg _ (by simpa using fun h => hkey h.symm)]
  rfl

lemma get_block?_funWorld (f : Nat → Nat → Nat → BlockType) (qx qy qz : ℤ) :
    (funWorld f).get_block? qx qy qz =
      some (if 0 ≤ qx ∧ qx < 16 ∧ 0 ≤ qy ∧ qy < 16 ∧ 0 ≤ qz ∧ qz < 16 then
        f qx.toNat qy.toNat qz.toNat
      else BlockType.Air) := by
  by_cases hb : 0 ≤ qx ∧ qx < 16 ∧ 0 ≤ qy ∧ qy < 16 ∧ 0 ≤ qz ∧ qz < 16
  · have hdx : qx.ediv (CHUNK_SIZE : ℤ) = 0 := by
      rw [chunkSize_intCast, intEdivEq]; omega
    have hdy : qy.ediv (CHUNK_SIZE : ℤ) = 0 := by
      rw [chunkSize_intCast, intEdivEq]; omega
    have hdz : qz.ediv (CHUNK_SIZE : ℤ) = 0 := by
      rw [chunkSize_intCast, intEdivEq]; omega
    have hmx : qx.emod (CHUNK_SIZE : ℤ) = qx := by
      rw [chunkSize_intCast, intEmodEq]; omega
    have hmy : qy.emod (CHUNK_SIZE : ℤ) = qy := by
      rw [chunkSize_intCast, intEmodEq]; omega
    have hmz : qz.emod (CHUNK_SIZE : ℤ) = qz := by
      rw [chunkSize_intCast, intEmodEq]; omega
    rw [World.get_block?]
    simp only [hdx, hdy, hdz, hmx, hmy, hmz, findChunk_funWorld_origin]
    rw [blockAt?_blocksOfFun (funChunk f) f rfl _ _ _ (by rw [chunkSize_eq]; omega)
      (by rw [chunkSize_eq]; omega) (by rw [chunkSize_eq]; omega)]
    simp [hb]
  · have hkey : (qx.ediv (CHUNK_SIZE : ℤ), qy.ediv (CHUNK_SIZE : ℤ),
        qz.ediv (CHUNK_SIZE : ℤ)) ≠ ((0 : ℤ), (0 : ℤ), (0 : ℤ)) := by
      rw [chunkSize_intCast, intEdivEq, intEdivEq, intEdivEq]
      intro h
      rw [Prod.mk.injEq, Prod.mk.injEq] at h
      have h1 : qx / 16 = 0 := h.1
      have h2 : qy / 16 = 0 := h.2.1
      have h3 : qz / 16 = 0 := h.2.2
      omega
    rw [World.get_block?]
    simp only [findChunk_funWorld_ne f _ hkey, hb, if_false]

lemma get_block_funWorld (f : Nat → Nat → Nat → BlockType) (qx qy qz : ℤ) :
    (funWorld f).get_block qx qy qz =
      (if 0 ≤ qx ∧ qx < 16 ∧ 0 ≤ qy ∧ qy < 16 ∧ 0 ≤ qz ∧ qz < 16 then
        f qx.toNat qy.toNat qz.toNat
      else BlockType.Air) := by
  rw [World.get_block, get_block?_funWorld]
  rfl

/-- C1: World::get_block resolves the chunk key by Euclidean division of each
world coordinate by 16 and the local cell by the Euclidean remainder: on any
world coordinate triple decomposed as 16·c + l with 0 ≤ l < 16 it returns Air
when no chunk is stored under (cx, cy, cz), and that chunk's
blocks[lx][ly][lz] otherwise; in particular the +x neighbor of local
(15, ly, lz) of chunk (cx, cy, cz) is local (0, ly, lz) of chunk
(cx+1, cy, cz) when that chunk exists and Air when it does not, negative
world coordinates included. -/
theorem c1_get_block_euclidean_chunking (w : World) (cx cy cz lx ly lz : ℤ)
    (hx : 0 ≤ lx ∧ lx < 16) (hy : 0 ≤ ly ∧ ly < 16) (hz : 0 ≤ lz ∧ lz < 16) :
    (w.findChunk (cx, cy, cz) = none →
      w.get_block? (16 * cx + lx) (16 * cy + ly) (16 * cz + lz) = some BlockType.Air) ∧
    (∀ c, w.findChunk (cx, cy, cz) = some c →
      w.get_block? (16 * cx + lx) (16 * cy + ly) (16 * cz + lz) =
        c.blockAt? lx.toNat ly.toNat lz.toNat) ∧
    (w.findChunk (cx + 1, cy, cz) = none →
      w.get_block? (16 * cx + 15 + 1) (16 * cy + ly) (16 * cz + lz) = some BlockType.Air) ∧
    (∀ c, w.findChunk (cx + 1, cy, cz) = some c →
      w.get_block? (16 * cx + 15 + 1) (16 * cy + ly) (16 * cz + lz) =
        c.blockAt? 0 ly.toNat lz.toNat) := by
  have hdx : (16 * cx + lx).ediv (CHUNK_SIZE : ℤ) = cx := by
    rw [chunkSize_intCast, intEdivEq]; omega
  have hdy : (16 * cy + ly).ediv (CHUNK_SIZE : ℤ) = cy := by
    rw [chunkSize_intCast, intEdivEq]; omega
  have hdz : (16 * cz + lz).ediv (CHUNK_SIZE : ℤ) = cz := by
    rw [chunkSize_intCast, intEdivEq]; omega
  have hmx : (16 * cx + lx).emod (CHUNK_SIZE : ℤ) = lx := by
    rw [chunkSize_intCast, intEmodEq]; omega
  have hmy : (16 * cy + ly).emod (CHUNK_SIZE : ℤ) = ly := by
    rw [chunkSize_intCast, intEmodEq]; omega
  have hmz : (16 * cz + lz).emod (CHUNK_SIZE : ℤ) = lz := by
    rw [chunkSize_intCast, intEmodEq]; omega
  have hdx1 : (16 * cx + 15 + 1).ediv (CHUNK_SIZE : ℤ) = cx + 1 := by
    rw [chunkSize_intCast, intEdivEq]; omega
  have hmx1 : (16 * cx + 15 + 1).emod (CHUNK_SIZE : ℤ) = 0 := by
    rw [chunkSize_intCast, intEmodEq]; omega
  refine ⟨fun hnone => ?_, fun c hsome => ?_, fun hnone => ?_, fun c hsome => ?_⟩
  · rw [World.get_block?]; simp only [hdx, hdy, hdz, hnone]
  · rw [World.get_block?]; simp only [hdx, hdy, hdz, hsome, hmx, hmy, hmz]
  · rw [World.get_block?]; simp only [hdx1, hdy, hdz, hnone]
  · rw [World.get_block?]; simp only [hdx1, hdy, hdz, hsome, hmx1, hmy, hmz]
    rfl

/-- Witness for c1_get_block_euclidean_chunking at the all-Air funWorld,
chunk key (0, 0, 0) and local offsets (2, 3, 4). -/
theorem c1_get_block_euclidean_chunking_witness :
    (((0:ℤ) ≤ 2 ∧ (2:ℤ) < 16) ∧ ((0:ℤ) ≤ 3 ∧ (3:ℤ) < 16) ∧ ((0:ℤ) ≤ 4 ∧ (4:ℤ) < 16)) ∧
    (((funWorld fun _ _ _ => BlockType.Air).findChunk (0, 0, 0) = none →
      (funWorld fun _ _ _ => BlockType.Air).get_block? (16 * 0 + 2) (16 * 0 + 3) (16 * 0 + 4) =
        some BlockType.Air) ∧
    (∀ c, (funWorld fun _ _ _ => BlockType.Air).findChunk (0, 0, 0) = some c →
      (funWorld fun _ _ _ => BlockType.Air).get_block? (16 * 0 + 2) (16 * 0 + 3) (16 * 0 + 4) =
        c.blockAt? (2:ℤ).toNat (3:ℤ).toNat (4:ℤ).toNat) ∧
    ((funWorld fun _ _ _ => BlockType.Air).findChunk (0 + 1, 0, 0) = none →
      (funWorld fun _ _ _ => BlockType.Air).get_block? (16 * 0 + 15 + 1) (16 * 0 + 3) (16 * 0 + 4) =
        some BlockType.Air) ∧
    (∀ c, (funWorld fun _ _ _ => BlockType.Air).findChunk (0 + 1, 0, 0) = some c →
      (funWorld fun _ _ _ => BlockType.Air).get_block? (16 * 0 + 15 + 1) (16 * 0 + 3) (16 * 0 + 4) =
        c.blockAt? 0 (3:ℤ).toNat (4:ℤ).toNat)) :=
  ⟨⟨by decide, by decide, by decide⟩,
    c1_get_block_euclidean_chunking (funWorld fun _ _ _ => BlockType.Air) 0 0 0 2 3 4
      (by decide) (by decide) (by decide)⟩

/-! Well-formedness machinery for C9. -/

lemma findChunk_mem (w : World) (key : ℤ × ℤ × ℤ) (c : Chunk)
    (h : w.findChunk key = some c) : ∃ k, (k, c) ∈ w.chunks := by
  rw [World.findChunk] at h
  obtain ⟨kc, hfind, hc⟩ := Option.map_eq_some'.mp h
  refine ⟨kc.1, ?_⟩
  have hmem := List.mem_of_find?_eq_some hfind
  have heta : (kc.1, c) = kc := by rw [← hc]
  rw [heta]
  exact hmem

lemma wfBlocks_blockAt? (c : Chunk) (hc : c.wfBlocks) (x y z : Nat)
    (hx : x < CHUNK_SIZE) (hy : y < CHUNK_SIZE) (hz : z < CHUNK_SIZE) :
    ∃ b, c.blockAt? x y z = some b := by
  obtain ⟨hlen, hall⟩ := hc
  have hx' : x < c.blocks.length := by rw [hlen]; exact hx
  rw [Chunk.blockAt?, List.getElem?_eq_getElem hx']
  obtain ⟨hplen, hpall⟩ := hall c.blocks[x] (List.getElem_mem hx')
  have hy' : y < c.blocks[x].length := by rw [hplen]; exact hy
  rw [Option.some_bind, List.getElem?_eq_getElem hy']
  have hrlen := hpall c.blocks[x][y] (List.getElem_mem hy')
  have hz' : z < c.blocks[x][y].length := by rw [hrlen]; exact hz
  rw [Option.some_bind, List.getElem?_eq_getElem hz']
  exact ⟨_, rfl⟩

lemma emodToNat_lt_chunk (x : ℤ) : (x.emod (CHUNK_SIZE : ℤ)).toNat < CHUNK_SIZE := by
  rw [chunkSize_eq, intEmodEq]
  omega

lemma wfBlocks_generate_terrain (noise : NoiseOracles) (c : Chunk) :
    (Chunk.generate_terrain noise c).wfBlocks := by
  refine ⟨by simp [Chunk.generate_terrain], ?_⟩
  intro plane hplane
  simp only [Chunk.generate_terrain, List.mem_map, List.mem_range] at hplane
  obtain ⟨x, hx, hplane⟩ := hplane
  subst hplane
  refine ⟨by simp, ?_⟩
  intro row hrow
  simp only [List.mem_map, List.mem_range] at hrow
  obtain ⟨y, hy, hrow⟩ := hrow
  subst hrow
  simp

lemma wfBlocks_funChunk (f : Nat → Nat → Nat → BlockType) : (funChunk f).wfBlocks := by
  refine ⟨by simp [funChunk, blocksOfFun], ?_⟩
  intro plane hplane
  simp only [funChunk, blocksOfFun, List.mem_map, List.mem_range] at hplane
  obtain ⟨x, hx, hplane⟩ := hplane
  subst hplane
  refine ⟨by simp, ?_⟩
  intro row hrow
  simp only [List.mem_map, List.mem_range] at hrow
  obtain ⟨y, hy, hrow⟩ := hrow
  subst hrow
  simp

lemma wf_funWorld (f : Nat → Nat → Nat → BlockType) : (funWorld f).wf := by
  intro kc hkc
  simp only [funWorld, List.mem_singleton] at hkc
  subst hkc
  exact wfBlocks_funChunk f

/-- C9: World::get_block is total and never indexes out of bounds: the local
coordinates produced by the Euclidean remainder always lie in [0, 16), so on
every world whose chunks all carry fully populated 16×16×16 blocks arrays the
three nested array accesses succeed for every integer coordinate triple (the
fallible get_block? always returns some block), and Chunk::new only produces
such fully populated chunks. -/
theorem c9_get_block_never_out_of_bounds (w : World) (hw : w.wf) :
    (∀ x : ℤ, 0 ≤ x.emod (CHUNK_SIZE : ℤ) ∧ x.emod (CHUNK_SIZE : ℤ) < 16) ∧
    (∀ x y z : ℤ, ∃ b, w.get_block? x y z = some b) ∧
    (∀ noise position, (Chunk.new noise position).wfBlocks) := by
  refine ⟨?_, ?_, fun noise position => wfBlocks_generate_terrain noise _⟩
  · intro x
    rw [chunkSize_intCast, intEmodEq]
    omega
  · intro x y z
    simp only [World.get_block?]
    cases hfind : w.findChunk (x.ediv (CHUNK_SIZE : ℤ), y.ediv (CHUNK_SIZE : ℤ),
        z.ediv (CHUNK_SIZE : ℤ)) with
    | none => exact ⟨BlockType.Air, rfl⟩
    | some c =>
        obtain ⟨k, hk⟩ := findChunk_mem w _ c hfind
        have hcwf := hw (k, c) hk
        exact wfBlocks_blockAt? c hcwf _ _ _
          (emodToNat_lt_chunk x) (emodToNat_lt_chunk y) (emodToNat_lt_chunk z)

/-- Witness for c9_get_block_never_out_of_bounds at the all-Air funWorld. -/
theorem c9_get_block_never_out_of_bounds_witness :
    (funWorld fun _ _ _ => BlockType.Air).wf ∧
    ((∀ x : ℤ, 0 ≤ x.emod (CHUNK_SIZE : ℤ) ∧ x.emod (CHUNK_SIZE : ℤ) < 16) ∧
    (∀ x y z : ℤ, ∃ b, (funWorld fun _ _ _ => BlockType.Air).get_block? x y z = some b) ∧
    (∀ noise position, (Chunk.new noise position).wfBlocks)) :=
  ⟨wf_funWorld _, c9_get_block_never_out_of_bounds _ (wf_funWorld _)⟩

/-- C3: for each of the six axis-aligned face directions, should_render_face
checks the neighbor one step in that direction, and returns true for a Water
current block exactly when that neighbor is not Water, and for any non-Water
current block exactly when that neighbor is Air or Water (absent regions read
as Air through World::get_block). -/
theorem c3_should_render_face_rule (w : World) (wx wy wz : ℤ) :
    (check_pos? wx wy wz faceFront = some (wx, wy, wz + 1) ∧
     check_pos? wx wy wz faceBack = some (wx, wy, wz - 1) ∧
     check_pos? wx wy wz faceTop = some (wx, wy + 1, wz) ∧
     check_pos? wx wy wz faceBottom = some (wx, wy - 1, wz) ∧
     check_pos? wx wy wz faceRight = some (wx + 1, wy, wz) ∧
     check_pos? wx wy wz faceLeft = some (wx - 1, wy, wz)) ∧
    (∀ face cp, check_pos? wx wy wz face = some cp →
      (should_render_face w wx wy wz face = true ↔
        (if w.get_block wx wy wz = BlockType.Water
         then w.get_block cp.1 cp.2.1 cp.2.2 ≠ BlockType.Water
         else w.get_block cp.1 cp.2.1 cp.2.2 = BlockType.Air ∨
           w.get_block cp.1 cp.2.1 cp.2.2 = BlockType.Water))) := by
  refine ⟨⟨rfl, rfl, rfl, rfl, rfl, rfl⟩, ?_⟩
  intro face cp hcp
  rw [should_render_face, hcp]
  cases hcur : w.get_block wx wy wz <;>
    cases hnb : w.get_block cp.1 cp.2.1 cp.2.2 <;>
      simp [hcur, hnb]

/-- Witness for c3_should_render_face_rule at the all-Air funWorld and the
origin (its inner premises are instantiated by the front face). -/
theorem c3_should_render_face_rule_witness :
    check_pos? 0 0 0 faceFront = some (0, 0, 1) ∧
    (should_render_face (funWorld fun _ _ _ => BlockType.Air) 0 0 0 faceFront = true ↔
      (if (funWorld fun _ _ _ => BlockType.Air).get_block 0 0 0 = BlockType.Water
       then (funWorld fun _ _ _ => BlockType.Air).get_block 0 0 1 ≠ BlockType.Water
       else (funWorld fun _ _ _ => BlockType.Air).get_block 0 0 1 = BlockType.Air ∨
         (funWorld fun _ _ _ => BlockType.Air).get_block 0 0 1 = BlockType.Water)) :=
  ⟨(c3_should_render_face_rule (funWorld fun _ _ _ => BlockType.Air) 0 0 0).1.1,
    (c3_should_render_face_rule (funWorld fun _ _ _ => BlockType.Air) 0 0 0).2
      faceFront (0, 0, 1) rfl⟩

/-! Structure of the generated index buffer. -/

lemma range_flatMap_step4 (off cnt : Nat) :
    ((List.range cnt).flatMap fun i =>
      if i % 4 = 0 then
        [(off + i, off + i + 1, off + i + 2), (off + i + 2, off + i + 3, off + i)]
      else []) =
    ((List.range ((cnt + 3) / 4)).flatMap fun g =>
      [(off + 4 * g, off + 4 * g + 1, off + 4 * g + 2),
       (off + 4 * g + 2, off + 4 * g + 3, off + 4 * g)]) := by
  induction cnt with
  | zero => rfl
  | succ n ih =>
      rw [List.range_succ, List.flatMap_append, ih]
      by_cases h : n % 4 = 0
      · have h4 : (n + 1 + 3) / 4 = (n + 3) / 4 + 1 := by omega
        have hg : 4 * ((n + 3) / 4) = n := by omega
        rw [h4, List.range_succ, List.flatMap_append]
        simp [h, hg]
      · have h4 : (n + 1 + 3) / 4 = (n + 3) / 4 := by omega
        simp [h, h4]

lemma generate_indices_eq_groups (off cnt : Nat) :
    generate_indices_for_vertices off cnt =
      ((List.range ((cnt + 3) / 4)).flatMap fun g =>
        [(off + 4 * g, off + 4 * g + 1, off + 4 * g + 2),
         (off + 4 * g + 2, off + 4 * g + 3, off + 4 * g)]) := by
  rw [generate_indices_for_vertices]
  exact range_flatMap_step4 off cnt

lemma generate_indices_length (off cnt : Nat) :
    (generate_indices_for_vertices off cnt).length = 2 * ((cnt + 3) / 4) := by
  rw [generate_indices_eq_groups]
  induction ((cnt + 3) / 4) with
  | zero => rfl
  | succ k ih =>
      rw [List.range_succ, List.flatMap_append, List.length_append, ih]
      simp [Nat.mul_succ]

lemma generate_indices_lt (off cnt : Nat) (hcnt : cnt % 4 = 0) :
    ∀ tr ∈ generate_indices_for_vertices off cnt,
      tr.1 < off + cnt ∧ tr.2.1 < off + cnt ∧ tr.2.2 < off + cnt := by
  intro tr htr
  rw [generate_indices_eq_groups] at htr
  simp only [List.mem_flatMap, List.mem_range, List.mem_cons, List.mem_singleton,
    List.not_mem_nil, or_false] at htr
  obtain ⟨g, hg, htr | htr⟩ := htr <;> subst htr <;>
    refine ⟨?_, ?_, ?_⟩ <;> dsimp only <;> omega

/-! Fold invariant of the emission pass of Chunk::update. -/

lemma generate_cube_vertices_length_mod4 (x y z : ℚ) (bt : BlockType) (w : World)
    (wx wy wz : ℤ) : (generate_cube_vertices x y z bt w wx wy wz).length % 4 = 0 := by
  rcases bt <;>
    simp only [generate_cube_vertices, List.length_append, apply_ite List.length,
      List.length_cons, List.length_nil] <;>
    split_ifs <;> rfl

/-- Invariant tying the three components of the emission accumulator together:
the counter equals the vertex count, vertices come in quads, each quad carries
two triangles, and every emitted index points below the counter. -/
def MeshInv (acc : MeshAcc) : Prop :=
  acc.2.2 = acc.1.length ∧ acc.1.length % 4 = 0 ∧
    2 * acc.2.1.length = acc.1.length ∧
    ∀ tr ∈ acc.2.1, tr.1 < acc.2.2 ∧ tr.2.1 < acc.2.2 ∧ tr.2.2 < acc.2.2

lemma meshStep_inv (c : Chunk) (w : World) (acc : MeshAcc)
    (entry : BlockPosition × BlockType) (h : MeshInv acc) :
    MeshInv (c.meshStep w acc entry) := by
  obtain ⟨h1, h2, h3, h4⟩ := h
  rw [Chunk.meshStep]
  by_cases he : (c.cubeFor w entry).isEmpty
  · simpa [he] using ⟨h1, h2, h3, h4⟩
  · have hk4 : (c.cubeFor w entry).length % 4 = 0 := by
      rw [Chunk.cubeFor]; exact generate_cube_vertices_length_mod4 _ _ _ _ _ _ _ _
    simp only [he, if_false, Bool.false_eq_true]
    refine ⟨?_, ?_, ?_, ?_⟩
    · dsimp only; rw [List.length_append]; omega
    · dsimp only; rw [List.length_append]; omega
    · dsimp only
      rw [List.length_append, List.length_append, generate_indices_length]
      omega
    · dsimp only
      intro tr htr
      rw [List.mem_append] at htr
      rcases htr with htr | htr
      · have := h4 tr htr
        omega
      · have := generate_indices_lt acc.2.2 (c.cubeFor w entry).length hk4 tr htr
        omega

lemma foldl_meshStep_inv (c : Chunk) (w : World)
    (l : List (BlockPosition × BlockType)) (acc : MeshAcc) (h : MeshInv acc) :
    MeshInv (l.foldl (c.meshStep w) acc) := by
  induction l generalizing acc with
  | nil => exact h
  | cons a l ih => exact ih _ (meshStep_inv c w acc a h)

lemma update_meshInv (c : Chunk) (w : World) :
    (c.update w).vertex_count = (c.update w).vertices.length ∧
    (c.update w).vertices.length % 4 = 0 ∧
    2 * (c.update w).indices.length = (c.update w).vertices.length ∧
    ∀ tr ∈ (c.update w).indices, tr.1 < (c.update w).vertex_count ∧
      tr.2.1 < (c.update w).vertex_count ∧ tr.2.2 < (c.update w).vertex_count :=
  foldl_meshStep_inv c w (c.visibleList w) ([], [], 0)
    ⟨rfl, rfl, rfl, by intro tr htr; cases htr⟩

/-- C6: generate_indices_for_vertices produces, for each quad group starting at
i = 0, 4, 8, ... below vertex_count, exactly the triangles
(offset+i, offset+i+1, offset+i+2) and (offset+i+2, offset+i+3, offset+i) in
that order; and in Chunk::update, where the offset passed is the running
vertex-count accumulator, every emitted index lies below the chunk's final
vertex_count, hence inside the chunk's vertex buffer. -/
theorem c6_index_generation_groups (vertex_offset vertex_count : Nat) :
    generate_indices_for_vertices vertex_offset vertex_count =
      ((List.range ((vertex_count + 3) / 4)).flatMap fun g =>
        [(vertex_offset + 4 * g, vertex_offset + 4 * g + 1, vertex_offset + 4 * g + 2),
         (vertex_offset + 4 * g + 2, vertex_offset + 4 * g + 3, vertex_offset + 4 * g)]) ∧
    (∀ (c : Chunk) (w : World), ∀ tr ∈ (c.update w).indices,
      tr.1 < (c.update w).vertex_count ∧ tr.2.1 < (c.update w).vertex_count ∧
        tr.2.2 < (c.update w).vertex_count) :=
  ⟨generate_indices_eq_groups vertex_offset vertex_count,
    fun c w => (update_meshInv c w).2.2.2⟩

/-- Witness for c6_index_generation_groups at offset 5 and count 8. -/
theorem c6_index_generation_groups_witness :
    generate_indices_for_vertices 5 8 =
      ((List.range ((8 + 3) / 4)).flatMap fun g =>
        [(5 + 4 * g, 5 + 4 * g + 1, 5 + 4 * g + 2),
         (5 + 4 * g + 2, 5 + 4 * g + 3, 5 + 4 * g)]) ∧
    (∀ (c : Chunk) (w : World), ∀ tr ∈ (c.update w).indices,
      tr.1 < (c.update w).vertex_count ∧ tr.2.1 < (c.update w).vertex_count ∧
        tr.2.2 < (c.update w).vertex_count) :=
  c6_index_generation_groups 5 8

/-- Scaffolding: the all-zero noise oracle, for concrete instantiations. -/
def zeroNoise : NoiseOracles :=
  { terrain_noise := fun _ _ => 0, detail_noise := fun _ _ => 0,
    cave_noise := fun _ _ _ => 0 }

/-- C2: after Chunk::generate_terrain, every local cell (x, y, z) holds the
priority-ordered decision on world_y and the target height H = surfaceHeight
(truncated base noise at frequency 0.02 times amplitude 32 plus offset 64,
plus detail noise at 4 times the frequency times amplitude 8): Water when
world_y ≥ H and world_y < 60; Air when world_y ≥ H; otherwise Air when the
cave density caveValue (frequency 0.05 on all axes) exceeds 0.6, Grass when
world_y = H - 1, Dirt when world_y > H - 4, and Stone otherwise. -/
theorem c2_generate_terrain_decision (noise : NoiseOracles) (c : Chunk) (x y z : Nat)
    (hx : x < 16) (hy : y < 16) (hz : z < 16) :
    (Chunk.generate_terrain noise c).blockAt? x y z =
      some (
        let height := surfaceHeight noise c.position x z
        let world_y : ℤ := c.position.2.1 * 16 + (y : ℤ)
        if height ≤ world_y ∧ world_y < 60 then BlockType.Water
        else if height ≤ world_y then BlockType.Air
        else if caveValue noise c.position x y z > 6 / 10 then BlockType.Air
        else if world_y = height - 1 then BlockType.Grass
        else if world_y > height - 4 then BlockType.Dirt
        else BlockType.Stone) := by
  rw [blockAt?_blocksOfFun (Chunk.generate_terrain noise c)
    (fun x y z => terrainBlock noise c.position x y z) rfl x y z
    (by rw [chunkSize_eq]; exact hx) (by rw [chunkSize_eq]; exact hy)
    (by rw [chunkSize_eq]; exact hz)]
  congr 1
  simp only [terrainBlock, chunkSize_intCast]
  split_ifs <;> first | rfl | omega

/-- Witness for c2_generate_terrain_decision at the zero noise oracle, the
all-Air funChunk and cell (0, 0, 0). -/
theorem c2_generate_terrain_decision_witness :
    ((0 : Nat) < 16 ∧ (0 : Nat) < 16 ∧ (0 : Nat) < 16) ∧
    (Chunk.generate_terrain zeroNoise (funChunk fun _ _ _ => BlockType.Air)).blockAt? 0 0 0 =
      some (
        let height := surfaceHeight zeroNoise
          (funChunk fun _ _ _ => BlockType.Air).position 0 0
        let world_y : ℤ := (funChunk fun _ _ _ => BlockType.Air).position.2.1 * 16 + ((0 : Nat) : ℤ)
        if height ≤ world_y ∧ world_y < 60 then BlockType.Water
        else if height ≤ world_y then BlockType.Air
        else if caveValue zeroNoise (funChunk fun _ _ _ => BlockType.Air).position 0 0 0 > 6 / 10
          then BlockType.Air
        else if world_y = height - 1 then BlockType.Grass
        else if world_y > height - 4 then BlockType.Dirt
        else BlockType.Stone) :=
  ⟨⟨by decide, by decide, by decide⟩,
    c2_generate_terrain_decision zeroNoise (funChunk fun _ _ _ => BlockType.Air) 0 0 0
      (by decide) (by decide) (by decide)⟩

/-! Pointwise evaluations of should_render_face. -/

lemma srf_true_of_air (W : World) (wx wy wz : ℤ) (face : String) (cp : ℤ × ℤ × ℤ)
    (hcp : check_pos? wx wy wz face = some cp)
    (hnb : W.get_block cp.1 cp.2.1 cp.2.2 = BlockType.Air) :
    should_render_face W wx wy wz face = true := by
  rw [should_render_face, hcp]
  cases hcur : W.get_block wx wy wz <;> simp [hnb]

lemma srf_false_of_solid (W : World) (wx wy wz : ℤ) (face : String) (cp : ℤ × ℤ × ℤ)
    (hcp : check_pos? wx wy wz face = some cp) (cur nb : BlockType)
    (hcur : W.get_block wx wy wz = cur) (hnb : W.get_block cp.1 cp.2.1 cp.2.2 = nb)
    (hcw : cur ≠ BlockType.Water) (hna : nb ≠ BlockType.Air) (hnw : nb ≠ BlockType.Water) :
    should_render_face W wx wy wz face = false := by
  subst hcur hnb
  rw [should_render_face, hcp]
  cases hcur : W.get_block wx wy wz <;>
    cases hnb : W.get_block cp.1 cp.2.1 cp.2.2 <;>
      simp_all

lemma srf_false_of_water_water (W : World) (wx wy wz : ℤ) (face : String) (cp : ℤ × ℤ × ℤ)
    (hcp : check_pos? wx wy wz face = some cp)
    (hcur : W.get_block wx wy wz = BlockType.Water)
    (hnb : W.get_block cp.1 cp.2.1 cp.2.2 = BlockType.Water) :
    should_render_face W wx wy wz face = false := by
  rw [should_render_face, hcp, hcur]
  simp [hnb]

/-- C5: a Water block emits at most one quad, namely the top face exactly when
the top visibility rule fires, its four vertices at height y + 2/5 (0.4 below
the full-block top y + 1/2) all carrying the water texture layer 4; with Water
above, a Water block emits nothing at all (hence no face between two
vertically adjacent Water blocks), and with Air above it emits exactly its
top quad. -/
theorem c5_water_emits_top_only (x y z : ℚ) (w : World) (wx wy wz : ℤ) :
    (generate_cube_vertices x y z BlockType.Water w wx wy wz =
      if should_render_face w wx wy wz faceTop then
        [⟨x - 1/2, y + 2/5, z - 1/2, 0, 0, 8, 4, 1⟩,
         ⟨x - 1/2, y + 2/5, z + 1/2, 1, 0, 9, 4, 1⟩,
         ⟨x + 1/2, y + 2/5, z + 1/2, 1, 1, 10, 4, 1⟩,
         ⟨x + 1/2, y + 2/5, z - 1/2, 0, 1, 11, 4, 1⟩]
      else []) ∧
    (generate_cube_vertices x y z BlockType.Water w wx wy wz).length ≤ 4 ∧
    (∀ v ∈ generate_cube_vertices x y z BlockType.Water w wx wy wz,
      v.y = y + 2/5 ∧ v.textureIndex = 4) ∧
    (w.get_block wx wy wz = BlockType.Water →
      w.get_block wx (wy + 1) wz = BlockType.Water →
      generate_cube_vertices x y z BlockType.Water w wx wy wz = []) ∧
    (w.get_block wx (wy + 1) wz = BlockType.Air →
      generate_cube_vertices x y z BlockType.Water w wx wy wz =
        [⟨x - 1/2, y + 2/5, z - 1/2, 0, 0, 8, 4, 1⟩,
         ⟨x - 1/2, y + 2/5, z + 1/2, 1, 0, 9, 4, 1⟩,
         ⟨x + 1/2, y + 2/5, z + 1/2, 1, 1, 10, 4, 1⟩,
         ⟨x + 1/2, y + 2/5, z - 1/2, 0, 1, 11, 4, 1⟩]) := by
  refine ⟨rfl, ?_, ?_, ?_, ?_⟩
  · by_cases h : should_render_face w wx wy wz faceTop <;>
      simp [generate_cube_vertices, h]
  · intro v hv
    by_cases h : should_render_face w wx wy wz faceTop
    · simp only [generate_cube_vertices, h, if_true, List.mem_cons,
        List.not_mem_nil, or_false] at hv
      rcases hv with hv | hv | hv | hv <;> subst hv <;> exact ⟨rfl, rfl⟩
    · simp [generate_cube_vertices, h] at hv
  · intro hcur habove
    have hsrf : should_render_face w wx wy wz faceTop = false :=
      srf_false_of_water_water w wx wy wz faceTop (wx, wy + 1, wz) rfl hcur habove
    simp [generate_cube_vertices, hsrf]
  · intro habove
    have hsrf : should_render_face w wx wy wz faceTop = true :=
      srf_true_of_air w wx wy wz faceTop (wx, wy + 1, wz) rfl habove
    simp [generate_cube_vertices, hsrf]

/-- Witness for c5_water_emits_top_only at the all-Air funWorld and the
origin (its implicational conjuncts are instantiated through the theorem). -/
theorem c5_water_emits_top_only_witness :
    (∀ v ∈ generate_cube_vertices 0 0 0 BlockType.Water
        (funWorld fun _ _ _ => BlockType.Air) 0 0 0,
      v.y = (0 : ℚ) + 2/5 ∧ v.textureIndex = 4) ∧
    ((funWorld fun _ _ _ => BlockType.Air).get_block 0 (0 + 1) 0 = BlockType.Air →
      generate_cube_vertices 0 0 0 BlockType.Water (funWorld fun _ _ _ => BlockType.Air) 0 0 0 =
        [⟨0 - 1/2, 0 + 2/5, 0 - 1/2, 0, 0, 8, 4, 1⟩,
         ⟨0 - 1/2, 0 + 2/5, 0 + 1/2, 1, 0, 9, 4, 1⟩,
         ⟨0 + 1/2, 0 + 2/5, 0 + 1/2, 1, 1, 10, 4, 1⟩,
         ⟨0 + 1/2, 0 + 2/5, 0 - 1/2, 0, 1, 11, 4, 1⟩]) :=
  ⟨(c5_water_emits_top_only 0 0 0 (funWorld fun _ _ _ => BlockType.Air) 0 0 0).2.2.1,
    (c5_water_emits_top_only 0 0 0 (funWorld fun _ _ _ => BlockType.Air) 0 0 0).2.2.2.2⟩

/-- C8 (amended): within the vertex run emitted for one solid block, the sixth
scalar (the corner index, field position) is exactly the concatenation of the
ranges of the rendered faces — front 0-3, back 4-7, top 8-11, bottom 12-15,
right 16-19, left 20-23 — hence strictly increasing and drawn from 0..23; the
same 0..23 range restarts for every block (see the counterexample for reuse
across blocks). -/
theorem c8_corner_index_per_block (x y z : ℚ) (w : World) (wx wy wz : ℤ) (bt : BlockType)
    (hbt : bt = BlockType.Grass ∨ bt = BlockType.Dirt ∨ bt = BlockType.Stone) :
    ((generate_cube_vertices x y z bt w wx wy wz).map Vertex.position =
      (if should_render_face w wx wy wz faceFront then [0, 1, 2, 3] else []) ++
      (if should_render_face w wx wy wz faceBack then [4, 5, 6, 7] else []) ++
      (if should_render_face w wx wy wz faceTop then [8, 9, 10, 11] else []) ++
      (if should_render_face w wx wy wz faceBottom then [12, 13, 14, 15] else []) ++
      (if should_render_face w wx wy wz faceRight then [16, 17, 18, 19] else []) ++
      (if should_render_face w wx wy wz faceLeft then [20, 21, 22, 23] else [])) ∧
    List.Pairwise (· < ·)
      ((generate_cube_vertices x y z bt w wx wy wz).map Vertex.position) ∧
    ((generate_cube_vertices x y z bt w wx wy wz).map Vertex.position).Sublist
      [0, 1, 2, 3, 4, 5, 6, 7, 8, 9, 10, 11, 12, 13,
       14, 15, 16, 17, 18, 19, 20, 21, 22, 23] := by
  have hmap : (generate_cube_vertices x y z bt w wx wy wz).map Vertex.position =
      (if should_render_face w wx wy wz faceFront then [0, 1, 2, 3] else []) ++
      (if should_render_face w wx wy wz faceBack then [4, 5, 6, 7] else []) ++
      (if should_render_face w wx wy wz faceTop then [8, 9, 10, 11] else []) ++
      (if should_render_face w wx wy wz faceBottom then [12, 13, 14, 15] else []) ++
      (if should_render_face w wx wy wz faceRight then [16, 17, 18, 19] else []) ++
      (if should_render_face w wx wy wz faceLeft then [20, 21, 22, 23] else []) := by
    rcases hbt with h | h | h <;> subst h <;>
      simp [generate_cube_vertices, apply_ite (List.map Vertex.position)]
  have hsub : ((generate_cube_vertices x y z bt w wx wy wz).map Vertex.position).Sublist
      [0, 1, 2, 3, 4, 5, 6, 7, 8, 9, 10, 11, 12, 13,
       14, 15, 16, 17, 18, 19, 20, 21, 22, 23] := by
    rw [hmap]
    have h24 : ([0, 1, 2, 3, 4, 5, 6, 7, 8, 9, 10, 11, 12, 13,
        14, 15, 16, 17, 18, 19, 20, 21, 22, 23] : List ℚ) =
        [0, 1, 2, 3] ++ [4, 5, 6, 7] ++ [8, 9, 10, 11] ++ [12, 13, 14, 15] ++
        [16, 17, 18, 19] ++ [20, 21, 22, 23] := rfl
    rw [h24]
    refine List.Sublist.append (List.Sublist.append (List.Sublist.append
      (List.Sublist.append (List.Sublist.append ?_ ?_) ?_) ?_) ?_) ?_ <;>
      split <;> simp
  exact ⟨hmap, List.Pairwise.sublist hsub (by decide), hsub⟩

/-- Witness for c8_corner_index_per_block at Grass, the all-Air funWorld and
the origin. -/
theorem c8_corner_index_per_block_witness :
    (BlockType.Grass = BlockType.Grass ∨ BlockType.Grass = BlockType.Dirt ∨
      BlockType.Grass = BlockType.Stone) ∧
    List.Pairwise (· < ·)
      ((generate_cube_vertices 0 0 0 BlockType.Grass
        (funWorld fun _ _ _ => BlockType.Air) 0 0 0).map Vertex.position) :=
  ⟨Or.inl rfl,
    (c8_corner_index_per_block 0 0 0 (funWorld fun _ _ _ => BlockType.Air) 0 0 0
      BlockType.Grass (Or.inl rfl)).2.1⟩

/-- Scaffolding: two isolated Grass blocks at local (1,1,1) and (3,3,3). -/
def twoGrassFun : Nat → Nat → Nat → BlockType :=
  fun x y z =>
    if (x = 1 ∧ y = 1 ∧ z = 1) ∨ (x = 3 ∧ y = 3 ∧ z = 3) then BlockType.Grass
    else BlockType.Air

/-- Counterexample to the claim that corner-index values are not reused across
blocks: in a world with two distinct isolated Grass blocks, the vertex run
emitted for each of the two blocks contains the corner-index value 0. -/
theorem c8_corner_index_reused_across_blocks :
    (0 : ℚ) ∈ ((funChunk twoGrassFun).cubeFor (funWorld twoGrassFun)
        (⟨1, 1, 1⟩, BlockType.Grass)).map Vertex.position ∧
    (0 : ℚ) ∈ ((funChunk twoGrassFun).cubeFor (funWorld twoGrassFun)
        (⟨3, 3, 3⟩, BlockType.Grass)).map Vertex.position ∧
    (⟨1, 1, 1⟩ : BlockPosition) ≠ ⟨3, 3, 3⟩ := by
  decide

/-! Support lemmas for flatMap over List.range with few non-empty cells. -/

lemma flatMap_range_eq_nil {α : Type} (n : Nat) (f : Nat → List α)
    (h : ∀ i, i < n → f i = []) : (List.range n).flatMap f = [] := by
  induction n with
  | zero => rfl
  | succ m ih =>
      rw [List.range_succ, List.flatMap_append,
        ih (fun i hi => h i (by omega))]
      simp [h m (by omega)]

lemma flatMap_range_eq_single {α : Type} (n p : Nat) (f : Nat → List α) (hp : p < n)
    (h : ∀ i, i < n → i ≠ p → f i = []) : (List.range n).flatMap f = f p := by
  induction n with
  | zero => omega
  | succ m ih =>
      rw [List.range_succ, List.flatMap_append]
      by_cases hpm : p = m
      · subst hpm
        rw [flatMap_range_eq_nil p f (fun i hi => h i (by omega) (by omega))]
        simp
      · rw [ih (by omega) (fun i hi hip => h i (by omega) hip)]
        simp [h m (by omega) (fun hc => hpm hc.symm)]

lemma flatMap_range_eq_pair {α : Type} (n p q : Nat) (f : Nat → List α)
    (hpq : p < q) (hq : q < n)
    (h : ∀ i, i < n → i ≠ p → i ≠ q → f i = []) :
    (List.range n).flatMap f = f p ++ f q := by
  induction n with
  | zero => omega
  | succ m ih =>
      rw [List.range_succ, List.flatMap_append]
      by_cases hqm : q = m
      · subst hqm
        rw [flatMap_range_eq_single q p f (by omega)
          (fun i hi hip => h i (by omega) hip (by omega))]
        simp
      · rw [ih (by omega) (fun i hi hip hiq => h i (by omega) hip hiq)]
        have hmp : m ≠ p := by omega
        simp [h m (by omega) hmp (fun hc => hqm hc.symm)]

/-! Pointwise facts about the scaffolding chunk. -/

lemma funChunk_position (f : Nat → Nat → Nat → BlockType) :
    (funChunk f).position = (0, 0, 0) := rfl

lemma blockAtD_funChunk (f : Nat → Nat → Nat → BlockType) (x y z : Nat)
    (hx : x < 16) (hy : y < 16) (hz : z < 16) :
    (funChunk f).blockAtD x y z = f x y z := by
  rw [Chunk.blockAtD, blockAt?_blocksOfFun (funChunk f) f rfl x y z
    (by rw [chunkSize_eq]; exact hx) (by rw [chunkSize_eq]; exact hy)
    (by rw [chunkSize_eq]; exact hz)]
  rfl

lemma visibleCell_of_air (c : Chunk) (w : World) (x y z : Nat)
    (h : c.blockAtD x y z = BlockType.Air) : c.visibleCell w x y z = [] := by
  simp [Chunk.visibleCell, h]

lemma visibleCell_of_front (c : Chunk) (w : World) (x y z : Nat)
    (hbt : c.blockAtD x y z ≠ BlockType.Air)
    (hf : should_render_face w (c.position.1 * (CHUNK_SIZE : ℤ) + (x : ℤ))
      (c.position.2.1 * (CHUNK_SIZE : ℤ) + (y : ℤ))
      (c.position.2.2 * (CHUNK_SIZE : ℤ) + (z : ℤ)) faceFront = true) :
    c.visibleCell w x y z = [(⟨x, y, z⟩, c.blockAtD x y z)] := by
  simp [Chunk.visibleCell, hbt, hf]

/-! Concrete worlds holding one or two blocks. -/

/-- Scaffolding: a single block of type t at local (px, py, pz), Air elsewhere. -/
def oneBlockFun (px py pz : Nat) (t : BlockType) : Nat → Nat → Nat → BlockType :=
  fun x y z => if x = px ∧ y = py ∧ z = pz then t else BlockType.Air

/-- Scaffolding: two blocks of type t at local (ax, ay, az) and (bx, by2, bz),
Air elsewhere. -/
def twoBlockFun (ax ay az bx by2 bz : Nat) (t : BlockType) :
    Nat → Nat → Nat → BlockType :=
  fun x y z =>
    if (x = ax ∧ y = ay ∧ z = az) ∨ (x = bx ∧ y = by2 ∧ z = bz) then t
    else BlockType.Air

lemma get_block_oneBlock (px py pz : Nat) (t : BlockType)
    (hpx : px < 16) (hpy : py < 16) (hpz : pz < 16) (qx qy qz : ℤ) :
    (funWorld (oneBlockFun px py pz t)).get_block qx qy qz =
      if qx = (px : ℤ) ∧ qy = (py : ℤ) ∧ qz = (pz : ℤ) then t else BlockType.Air := by
  rw [get_block_funWorld]
  by_cases he : qx = (px : ℤ) ∧ qy = (py : ℤ) ∧ qz = (pz : ℤ)
  · have hb : 0 ≤ qx ∧ qx < 16 ∧ 0 ≤ qy ∧ qy < 16 ∧ 0 ≤ qz ∧ qz < 16 := by omega
    have hT : qx.toNat = px ∧ qy.toNat = py ∧ qz.toNat = pz := by omega
    rw [if_pos hb, if_pos he, oneBlockFun]
    rw [if_pos hT]
  · by_cases hb : 0 ≤ qx ∧ qx < 16 ∧ 0 ≤ qy ∧ qy < 16 ∧ 0 ≤ qz ∧ qz < 16
    · have hne : ¬ (qx.toNat = px ∧ qy.toNat = py ∧ qz.toNat = pz) := by omega
      rw [if_pos hb, if_neg he, oneBlockFun]
      rw [if_neg hne]
    · rw [if_neg hb, if_neg he]

lemma get_block_twoBlock (ax ay az bx by2 bz : Nat) (t : BlockType)
    (hax : ax < 16) (hay : ay < 16) (haz : az < 16)
    (hbx : bx < 16) (hby : by2 < 16) (hbz : bz < 16) (qx qy qz : ℤ) :
    (funWorld (twoBlockFun ax ay az bx by2 bz t)).get_block qx qy qz =
      if (qx = (ax : ℤ) ∧ qy = (ay : ℤ) ∧ qz = (az : ℤ)) ∨
         (qx = (bx : ℤ) ∧ qy = (by2 : ℤ) ∧ qz = (bz : ℤ)) then t
      else BlockType.Air := by
  rw [get_block_funWorld]
  by_cases he : (qx = (ax : ℤ) ∧ qy = (ay : ℤ) ∧ qz = (az : ℤ)) ∨
      (qx = (bx : ℤ) ∧ qy = (by2 : ℤ) ∧ qz = (bz : ℤ))
  · have hb : 0 ≤ qx ∧ qx < 16 ∧ 0 ≤ qy ∧ qy < 16 ∧ 0 ≤ qz ∧ qz < 16 := by omega
    have hT : (qx.toNat = ax ∧ qy.toNat = ay ∧ qz.toNat = az) ∨
        (qx.toNat = bx ∧ qy.toNat = by2 ∧ qz.toNat = bz) := by omega
    rw [if_pos hb, if_pos he, twoBlockFun]
    rw [if_pos hT]
  · by_cases hb : 0 ≤ qx ∧ qx < 16 ∧ 0 ≤ qy ∧ qy < 16 ∧ 0 ≤ qz ∧ qz < 16
    · have hne : ¬ ((qx.toNat = ax ∧ qy.toNat = ay ∧ qz.toNat = az) ∨
          (qx.toNat = bx ∧ qy.toNat = by2 ∧ qz.toNat = bz)) := by omega
      rw [if_pos hb, if_neg he, twoBlockFun]
      rw [if_neg hne]
    · rw [if_neg hb, if_neg he]

lemma funChunk_cx (f : Nat → Nat → Nat → BlockType) (a : Nat) :
    (funChunk f).position.1 * (CHUNK_SIZE : ℤ) + (a : ℤ) = (a : ℤ) := by
  show (0 : ℤ) * (CHUNK_SIZE : ℤ) + (a : ℤ) = (a : ℤ)
  ring

lemma funChunk_cy (f : Nat → Nat → Nat → BlockType) (a : Nat) :
    (funChunk f).position.2.1 * (CHUNK_SIZE : ℤ) + (a : ℤ) = (a : ℤ) := by
  show (0 : ℤ) * (CHUNK_SIZE : ℤ) + (a : ℤ) = (a : ℤ)
  ring

lemma funChunk_cz (f : Nat → Nat → Nat → BlockType) (a : Nat) :
    (funChunk f).position.2.2 * (CHUNK_SIZE : ℤ) + (a : ℤ) = (a : ℤ) := by
  show (0 : ℤ) * (CHUNK_SIZE : ℤ) + (a : ℤ) = (a : ℤ)
  ring

lemma visibleList_oneBlock (px py pz : Nat) (t : BlockType)
    (hpx : px < 16) (hpy : py < 16) (hpz : pz < 16) (ht : t ≠ BlockType.Air) :
    (funChunk (oneBlockFun px py pz t)).visibleList
        (funWorld (oneBlockFun px py pz t)) = [(⟨px, py, pz⟩, t)] := by
  have hgb := get_block_oneBlock px py pz t hpx hpy hpz
  have hcell : ∀ x y z : Nat, x < 16 → y < 16 → z < 16 → ¬(x = px ∧ y = py ∧ z = pz) →
      (funChunk (oneBlockFun px py pz t)).visibleCell
        (funWorld (oneBlockFun px py pz t)) x y z = [] := by
    intro x y z hx hy hz hne
    apply visibleCell_of_air
    rw [blockAtD_funChunk _ x y z hx hy hz, oneBlockFun]
    rw [if_neg hne]
  have hbtp : (funChunk (oneBlockFun px py pz t)).blockAtD px py pz = t := by
    rw [blockAtD_funChunk _ px py pz hpx hpy hpz, oneBlockFun, if_pos ⟨rfl, rfl, rfl⟩]
  have hfront : should_render_face (funWorld (oneBlockFun px py pz t))
      (px : ℤ) (py : ℤ) (pz : ℤ) faceFront = true := by
    refine srf_true_of_air _ _ _ _ faceFront ((px : ℤ), (py : ℤ), (pz : ℤ) + 1) rfl ?_
    rw [hgb, if_neg (by dsimp only; omega)]
  have hcellp : (funChunk (oneBlockFun px py pz t)).visibleCell
      (funWorld (oneBlockFun px py pz t)) px py pz = [(⟨px, py, pz⟩, t)] := by
    rw [visibleCell_of_front _ _ px py pz (by rw [hbtp]; exact ht) ?_, hbtp]
    rw [funChunk_cx, funChunk_cy, funChunk_cz]
    exact hfront
  rw [Chunk.visibleList]
  refine (flatMap_range_eq_single CHUNK_SIZE px _ hpx ?_).trans ?_
  · intro x hx hxp
    apply flatMap_range_eq_nil
    intro y hy
    apply flatMap_range_eq_nil
    intro z hz
    exact hcell x y z hx hy hz (fun hc => hxp hc.1)
  · refine (flatMap_range_eq_single CHUNK_SIZE py _ hpy ?_).trans ?_
    · intro y hy hyp
      apply flatMap_range_eq_nil
      intro z hz
      exact hcell px y z hpx hy hz (fun hc => hyp hc.2.1)
    · refine (flatMap_range_eq_single CHUNK_SIZE pz _ hpz ?_).trans ?_
      · intro z hz hzp
        exact hcell px py z hpx hpy hz (fun hc => hzp hc.2.2)
      · exact hcellp

lemma update_oneBlock (px py pz : Nat) (t : BlockType)
    (hpx : px < 16) (hpy : py < 16) (hpz : pz < 16)
    (ht : t = BlockType.Grass ∨ t = BlockType.Dirt ∨ t = BlockType.Stone) :
    ((funChunk (oneBlockFun px py pz t)).update
        (funWorld (oneBlockFun px py pz t))).vertices.length = 24 ∧
    ((funChunk (oneBlockFun px py pz t)).update
        (funWorld (oneBlockFun px py pz t))).indices.length = 12 := by
  have htA : t ≠ BlockType.Air := by rcases ht with h | h | h <;> subst h <;> simp
  have hgb := get_block_oneBlock px py pz t hpx hpy hpz
  have hsrf : ∀ (face : String) (cp : ℤ × ℤ × ℤ),
      check_pos? (px : ℤ) (py : ℤ) (pz : ℤ) face = some cp →
      ¬(cp.1 = (px : ℤ) ∧ cp.2.1 = (py : ℤ) ∧ cp.2.2 = (pz : ℤ)) →
      should_render_face (funWorld (oneBlockFun px py pz t))
        (px : ℤ) (py : ℤ) (pz : ℤ) face = true := by
    intro face cp hcp hne
    refine srf_true_of_air _ _ _ _ face cp hcp ?_
    rw [hgb, if_neg hne]
  have hf := hsrf faceFront _ rfl (by dsimp only; omega)
  have hbk := hsrf faceBack _ rfl (by dsimp only; omega)
  have htp := hsrf faceTop _ rfl (by dsimp only; omega)
  have hbo := hsrf faceBottom _ rfl (by dsimp only; omega)
  have hr := hsrf faceRight _ rfl (by dsimp only; omega)
  have hl := hsrf faceLeft _ rfl (by dsimp only; omega)
  have hlen : ((funChunk (oneBlockFun px py pz t)).cubeFor
      (funWorld (oneBlockFun px py pz t)) (⟨px, py, pz⟩, t)).length = 24 := by
    rw [Chunk.cubeFor]
    dsimp only
    rw [funChunk_cx, funChunk_cy, funChunk_cz]
    rcases ht with h | h | h <;> subst h <;>
      simp [generate_cube_vertices, hf, hbk, htp, hbo, hr, hl]
  have hne2 : ((funChunk (oneBlockFun px py pz t)).cubeFor
      (funWorld (oneBlockFun px py pz t)) (⟨px, py, pz⟩, t)).isEmpty = false := by
    cases hc : (funChunk (oneBlockFun px py pz t)).cubeFor
        (funWorld (oneBlockFun px py pz t)) (⟨px, py, pz⟩, t) with
    | nil => rw [hc] at hlen; simp at hlen
    | cons a l => rfl
  have hvl := visibleList_oneBlock px py pz t hpx hpy hpz htA
  constructor
  · simp only [Chunk.update, hvl, List.foldl, Chunk.meshStep, hne2]
    simp [hlen]
  · simp only [Chunk.update, hvl, List.foldl, Chunk.meshStep, hne2]
    simp [generate_indices_length, hlen]

lemma visibleList_twoBlockX (px py pz : Nat) (t : BlockType)
    (hpx : px + 1 < 16) (hpy : py < 16) (hpz : pz < 16) (ht : t ≠ BlockType.Air) :
    (funChunk (twoBlockFun px py pz (px + 1) py pz t)).visibleList
        (funWorld (twoBlockFun px py pz (px + 1) py pz t)) =
      [(⟨px, py, pz⟩, t), (⟨px + 1, py, pz⟩, t)] := by
  have hgb := get_block_twoBlock px py pz (px + 1) py pz t (by omega) hpy hpz hpx hpy hpz
  have hcell : ∀ x y z : Nat, x < 16 → y < 16 → z < 16 →
      ¬((x = px ∧ y = py ∧ z = pz) ∨ (x = px + 1 ∧ y = py ∧ z = pz)) →
      (funChunk (twoBlockFun px py pz (px + 1) py pz t)).visibleCell
        (funWorld (twoBlockFun px py pz (px + 1) py pz t)) x y z = [] := by
    intro x y z hx hy hz hne
    apply visibleCell_of_air
    rw [blockAtD_funChunk _ x y z hx hy hz, twoBlockFun]
    rw [if_neg hne]
  have hbtA : (funChunk (twoBlockFun px py pz (px + 1) py pz t)).blockAtD px py pz = t := by
    rw [blockAtD_funChunk _ px py pz (by omega) hpy hpz, twoBlockFun,
      if_pos (Or.inl ⟨rfl, rfl, rfl⟩)]
  have hbtB : (funChunk (twoBlockFun px py pz (px + 1) py pz t)).blockAtD
      (px + 1) py pz = t := by
    rw [blockAtD_funChunk _ (px + 1) py pz hpx hpy hpz, twoBlockFun,
      if_pos (Or.inr ⟨rfl, rfl, rfl⟩)]
  have hfrontA : should_render_face (funWorld (twoBlockFun px py pz (px + 1) py pz t))
      (px : ℤ) (py : ℤ) (pz : ℤ) faceFront = true := by
    refine srf_true_of_air _ _ _ _ faceFront ((px : ℤ), (py : ℤ), (pz : ℤ) + 1) rfl ?_
    rw [hgb, if_neg (by dsimp only; omega)]
  have hfrontB : should_render_face (funWorld (twoBlockFun px py pz (px + 1) py pz t))
      ((px + 1 : ℕ) : ℤ) (py : ℤ) (pz : ℤ) faceFront = true := by
    refine srf_true_of_air _ _ _ _ faceFront
      (((px + 1 : ℕ) : ℤ), (py : ℤ), (pz : ℤ) + 1) rfl ?_
    rw [hgb, if_neg (by dsimp only; omega)]
  have hcellA : (funChunk (twoBlockFun px py pz (px + 1) py pz t)).visibleCell
      (funWorld (twoBlockFun px py pz (px + 1) py pz t)) px py pz =
      [(⟨px, py, pz⟩, t)] := by
    rw [visibleCell_of_front _ _ px py pz (by rw [hbtA]; exact ht) ?_, hbtA]
    rw [funChunk_cx, funChunk_cy, funChunk_cz]
    exact hfrontA
  have hcellB : (funChunk (twoBlockFun px py pz (px + 1) py pz t)).visibleCell
      (funWorld (twoBlockFun px py pz (px + 1) py pz t)) (px + 1) py pz =
      [(⟨px + 1, py, pz⟩, t)] := by
    rw [visibleCell_of_front _ _ (px + 1) py pz (by rw [hbtB]; exact ht) ?_, hbtB]
    rw [funChunk_cx, funChunk_cy, funChunk_cz]
    exact hfrontB
  rw [Chunk.visibleList]
  refine (flatMap_range_eq_pair CHUNK_SIZE px (px + 1) _ (by omega) hpx ?_).trans ?_
  · intro x hx hxp hxq
    apply flatMap_range_eq_nil
    intro y hy
    apply flatMap_range_eq_nil
    intro z hz
    refine hcell x y z hx hy hz ?_
    rintro (⟨h1, _, _⟩ | ⟨h1, _, _⟩)
    · exact hxp h1
    · exact hxq h1
  · have hA : ((List.range CHUNK_SIZE).flatMap fun y =>
        (List.range CHUNK_SIZE).flatMap fun z =>
          (funChunk (twoBlockFun px py pz (px + 1) py pz t)).visibleCell
            (funWorld (twoBlockFun px py pz (px + 1) py pz t)) px y z) =
        [(⟨px, py, pz⟩, t)] := by
      refine (flatMap_range_eq_single CHUNK_SIZE py _ hpy ?_).trans ?_
      · intro y hy hyp
        apply flatMap_range_eq_nil
        intro z hz
        refine hcell px y z (by omega) hy hz ?_
        rintro (⟨_, h2, _⟩ | ⟨h1, _, _⟩)
        · exact hyp h2
        · omega
      · refine (flatMap_range_eq_single CHUNK_SIZE pz _ hpz ?_).trans ?_
        · intro z hz hzp
          refine hcell px py z (by omega) hpy hz ?_
          rintro (⟨_, _, h3⟩ | ⟨h1, _, _⟩)
          · exact hzp h3
          · omega
        · exact hcellA
    have hB : ((List.range CHUNK_SIZE).flatMap fun y =>
        (List.range CHUNK_SIZE).flatMap fun z =>
          (funChunk (twoBlockFun px py pz (px + 1) py pz t)).visibleCell
            (funWorld (twoBlockFun px py pz (px + 1) py pz t)) (px + 1) y z) =
        [(⟨px + 1, py, pz⟩, t)] := by
      refine (flatMap_range_eq_single CHUNK_SIZE py _ hpy ?_).trans ?_
      · intro y hy hyp
        apply flatMap_range_eq_nil
        intro z hz
        refine hcell (px + 1) y z hpx hy hz ?_
        rintro (⟨h1, _, _⟩ | ⟨_, h2, _⟩)
        · omega
        · exact hyp h2
      · refine (flatMap_range_eq_single CHUNK_SIZE pz _ hpz ?_).trans ?_
        · intro z hz hzp
          refine hcell (px + 1) py z hpx hpy hz ?_
          rintro (⟨h1, _, _⟩ | ⟨_, _, h3⟩)
          · omega
          · exact hzp h3
        · exact hcellB
    rw [hA, hB]
    rfl

lemma update_twoBlockX (px py pz : Nat) (t : BlockType)
    (hpx : px + 1 < 16) (hpy : py < 16) (hpz : pz < 16)
    (ht : t = BlockType.Grass ∨ t = BlockType.Dirt ∨ t = BlockType.Stone) :
    ((funChunk (twoBlockFun px py pz (px + 1) py pz t)).update
        (funWorld (twoBlockFun px py pz (px + 1) py pz t))).vertices.length = 40 ∧
    ((funChunk (twoBlockFun px py pz (px + 1) py pz t)).update
        (funWorld (twoBlockFun px py pz (px + 1) py pz t))).indices.length = 20 := by
  have htA : t ≠ BlockType.Air := by rcases ht with h | h | h <;> subst h <;> simp
  have htW : t ≠ BlockType.Water := by rcases ht with h | h | h <;> subst h <;> simp
  have hgb := get_block_twoBlock px py pz (px + 1) py pz t (by omega) hpy hpz hpx hpy hpz
  have hsrfT : ∀ (wx wy wz : ℤ) (face : String) (cp : ℤ × ℤ × ℤ),
      check_pos? wx wy wz face = some cp →
      ¬((cp.1 = (px : ℤ) ∧ cp.2.1 = (py : ℤ) ∧ cp.2.2 = (pz : ℤ)) ∨
        (cp.1 = ((px + 1 : ℕ) : ℤ) ∧ cp.2.1 = (py : ℤ) ∧ cp.2.2 = (pz : ℤ))) →
      should_render_face (funWorld (twoBlockFun px py pz (px + 1) py pz t))
        wx wy wz face = true := by
    intro wx wy wz face cp hcp hne
    exact srf_true_of_air _ _ _ _ face cp hcp (by rw [hgb, if_neg hne])
  have hfA := hsrfT (px : ℤ) (py : ℤ) (pz : ℤ) faceFront _ rfl (by dsimp only; omega)
  have hbkA := hsrfT (px : ℤ) (py : ℤ) (pz : ℤ) faceBack _ rfl (by dsimp only; omega)
  have htpA := hsrfT (px : ℤ) (py : ℤ) (pz : ℤ) faceTop _ rfl (by dsimp only; omega)
  have hboA := hsrfT (px : ℤ) (py : ℤ) (pz : ℤ) faceBottom _ rfl (by dsimp only; omega)
  have hlA := hsrfT (px : ℤ) (py : ℤ) (pz : ℤ) faceLeft _ rfl (by dsimp only; omega)
  have hfB := hsrfT ((px : ℤ) + 1) (py : ℤ) (pz : ℤ) faceFront _ rfl
    (by dsimp only; omega)
  have hbkB := hsrfT ((px : ℤ) + 1) (py : ℤ) (pz : ℤ) faceBack _ rfl
    (by dsimp only; omega)
  have htpB := hsrfT ((px : ℤ) + 1) (py : ℤ) (pz : ℤ) faceTop _ rfl
    (by dsimp only; omega)
  have hboB := hsrfT ((px : ℤ) + 1) (py : ℤ) (pz : ℤ) faceBottom _ rfl
    (by dsimp only; omega)
  have hrB := hsrfT ((px : ℤ) + 1) (py : ℤ) (pz : ℤ) faceRight _ rfl
    (by dsimp only; omega)
  have hcurA : (funWorld (twoBlockFun px py pz (px + 1) py pz t)).get_block
      (px : ℤ) (py : ℤ) (pz : ℤ) = t := by
    rw [hgb, if_pos (Or.inl ⟨rfl, rfl, rfl⟩)]
  have hcurB : (funWorld (twoBlockFun px py pz (px + 1) py pz t)).get_block
      ((px : ℤ) + 1) (py : ℤ) (pz : ℤ) = t := by
    rw [hgb, if_pos (Or.inr ⟨by omega, rfl, rfl⟩)]
  have hnbA : (funWorld (twoBlockFun px py pz (px + 1) py pz t)).get_block
      ((px : ℤ) + 1) (py : ℤ) (pz : ℤ) = t := hcurB
  have hnbB : (funWorld (twoBlockFun px py pz (px + 1) py pz t)).get_block
      ((px : ℤ) + 1 - 1) (py : ℤ) (pz : ℤ) = t := by
    rw [hgb, if_pos (Or.inl ⟨by omega, rfl, rfl⟩)]
  have hrA : should_render_face (funWorld (twoBlockFun px py pz (px + 1) py pz t))
      (px : ℤ) (py : ℤ) (pz : ℤ) faceRight = false :=
    srf_false_of_solid _ _ _ _ faceRight ((px : ℤ) + 1, (py : ℤ), (pz : ℤ)) rfl t t
      hcurA hnbA htW htA htW
  have hlB : should_render_face (funWorld (twoBlockFun px py pz (px + 1) py pz t))
      ((px : ℤ) + 1) (py : ℤ) (pz : ℤ) faceLeft = false :=
    srf_false_of_solid _ _ _ _ faceLeft ((px : ℤ) + 1 - 1, (py : ℤ), (pz : ℤ)) rfl t t
      hcurB hnbB htW htA htW
  have hlenA : ((funChunk (twoBlockFun px py pz (px + 1) py pz t)).cubeFor
      (funWorld (twoBlockFun px py pz (px + 1) py pz t)) (⟨px, py, pz⟩, t)).length = 20 := by
    rw [Chunk.cubeFor]
    dsimp only
    rw [funChunk_cx, funChunk_cy, funChunk_cz]
    rcases ht with h | h | h <;> subst h <;>
      simp [generate_cube_vertices, hfA, hbkA, htpA, hboA, hrA, hlA]
  have hlenB : ((funChunk (twoBlockFun px py pz (px + 1) py pz t)).cubeFor
      (funWorld (twoBlockFun px py pz (px + 1) py pz t))
      (⟨px + 1, py, pz⟩, t)).length = 20 := by
    rw [Chunk.cubeFor]
    dsimp only
    rw [funChunk_cx, funChunk_cy, funChunk_cz]
    have hc1 : ((px + 1 : ℕ) : ℤ) = (px : ℤ) + 1 := by omega
    rw [hc1]
    rcases ht with h | h | h <;> subst h <;>
      simp [generate_cube_vertices, hfB, hbkB, htpB, hboB, hrB, hlB]
  have hneA : ((funChunk (twoBlockFun px py pz (px + 1) py pz t)).cubeFor
      (funWorld (twoBlockFun px py pz (px + 1) py pz t)) (⟨px, py, pz⟩, t)).isEmpty =
      false := by
    cases hc : (funChunk (twoBlockFun px py pz (px + 1) py pz t)).cubeFor
        (funWorld (twoBlockFun px py pz (px + 1) py pz t)) (⟨px, py, pz⟩, t) with
    | nil => rw [hc] at hlenA; simp at hlenA
    | cons a l => rfl
  have hneB : ((funChunk (twoBlockFun px py pz (px + 1) py pz t)).cubeFor
      (funWorld (twoBlockFun px py pz (px + 1) py pz t)) (⟨px + 1, py, pz⟩, t)).isEmpty =
      false := by
    cases hc : (funChunk (twoBlockFun px py pz (px + 1) py pz t)).cubeFor
        (funWorld (twoBlockFun px py pz (px + 1) py pz t)) (⟨px + 1, py, pz⟩, t) with
    | nil => rw [hc] at hlenB; simp at hlenB
    | cons a l => rfl
  have hvl := visibleList_twoBlockX px py pz t hpx hpy hpz htA
  constructor
  · simp only [Chunk.update, hvl, List.foldl, Chunk.meshStep, hneA, hneB]
    simp [hlenA, hlenB]
  · simp only [Chunk.update, hvl, List.foldl, Chunk.meshStep, hneA, hneB]
    simp [generate_indices_length, hlenA, hlenB]

/-- C4: in a world whose only non-Air content is one isolated solid block
(Grass, Dirt or Stone; every neighbor Air), Chunk::update emits exactly 6
quads for it — 24 vertices and 12 triangles; in a world holding exactly two
x-adjacent blocks of the same solid type, update emits exactly 10 quads in
total — 40 vertices and 20 triangles — the two faces on the shared boundary
being suppressed, one on each block. -/
theorem c4_quad_counts (t : BlockType)
    (ht : t = BlockType.Grass ∨ t = BlockType.Dirt ∨ t = BlockType.Stone) :
    (∀ px py pz : Nat, px < 16 → py < 16 → pz < 16 →
      ((funChunk (oneBlockFun px py pz t)).update
          (funWorld (oneBlockFun px py pz t))).vertices.length = 24 ∧
      ((funChunk (oneBlockFun px py pz t)).update
          (funWorld (oneBlockFun px py pz t))).indices.length = 12) ∧
    (∀ px py pz : Nat, px + 1 < 16 → py < 16 → pz < 16 →
      ((funChunk (twoBlockFun px py pz (px + 1) py pz t)).update
          (funWorld (twoBlockFun px py pz (px + 1) py pz t))).vertices.length = 40 ∧
      ((funChunk (twoBlockFun px py pz (px + 1) py pz t)).update
          (funWorld (twoBlockFun px py pz (px + 1) py pz t))).indices.length = 20) :=
  ⟨fun px py pz hx hy hz => update_oneBlock px py pz t hx hy hz ht,
   fun px py pz hx hy hz => update_twoBlockX px py pz t hx hy hz ht⟩

/-- Witness for c4_quad_counts at Grass, single block (1, 2, 3) and the
x-adjacent pair (1, 2, 3) and (2, 2, 3). -/
theorem c4_quad_counts_witness :
    (BlockType.Grass = BlockType.Grass ∨ BlockType.Grass = BlockType.Dirt ∨
      BlockType.Grass = BlockType.Stone) ∧
    (((funChunk (oneBlockFun 1 2 3 BlockType.Grass)).update
        (funWorld (oneBlockFun 1 2 3 BlockType.Grass))).vertices.length = 24 ∧
      ((funChunk (oneBlockFun 1 2 3 BlockType.Grass)).update
        (funWorld (oneBlockFun 1 2 3 BlockType.Grass))).indices.length = 12) ∧
    (((funChunk (twoBlockFun 1 2 3 (1 + 1) 2 3 BlockType.Grass)).update
        (funWorld (twoBlockFun 1 2 3 (1 + 1) 2 3 BlockType.Grass))).vertices.length = 40 ∧
      ((funChunk (twoBlockFun 1 2 3 (1 + 1) 2 3 BlockType.Grass)).update
        (funWorld (twoBlockFun 1 2 3 (1 + 1) 2 3 BlockType.Grass))).indices.length = 20) :=
  ⟨Or.inl rfl,
   (c4_quad_counts BlockType.Grass (Or.inl rfl)).1 1 2 3 (by decide) (by decide) (by decide),
   (c4_quad_counts BlockType.Grass (Or.inl rfl)).2 1 2 3 (by decide) (by decide) (by decide)⟩

/-- Scaffolding: two vertically stacked Water blocks at local (0,0,0) and
(0,1,0). -/
def stackedWaterFun : Nat → Nat → Nat → BlockType :=
  twoBlockFun 0 0 0 0 1 0 BlockType.Water

/-- C10: after every Chunk::update the derived buffers are mutually
consistent — vertex_count equals the number of vertices, vertices come in
quads (length divisible by 4), the number of triangle records is exactly half
the number of vertices, and every emitted index is strictly below
vertex_count; moreover, in the stacked-water world the lower Water block is
in visible_blocks (a side face passes the visibility test) while contributing
zero vertices and zero indices: the whole mesh is the upper block's single
top quad, 4 vertices and 2 triangles. -/
theorem c10_update_buffer_consistency :
    (∀ (c : Chunk) (w : World),
      (c.update w).vertex_count = (c.update w).vertices.length ∧
      (c.update w).vertices.length % 4 = 0 ∧
      2 * (c.update w).indices.length = (c.update w).vertices.length ∧
      ∀ tr ∈ (c.update w).indices, tr.1 < (c.update w).vertex_count ∧
        tr.2.1 < (c.update w).vertex_count ∧ tr.2.2 < (c.update w).vertex_count) ∧
    ((⟨0, 0, 0⟩, BlockType.Water) ∈
      ((funChunk stackedWaterFun).update (funWorld stackedWaterFun)).visible_blocks) ∧
    ((funChunk stackedWaterFun).update (funWorld stackedWaterFun)).vertices.length = 4 ∧
    ((funChunk stackedWaterFun).update (funWorld stackedWaterFun)).indices.length = 2 := by
  refine ⟨fun c w => update_meshInv c w, ?_, ?_, ?_⟩ <;> decide
